import Mathlib

/-!
Verification development for `yt_polling_v2.py`.

The file shallowly embeds the parts of the script that carry logic:

* `estimate_calls` — the quota estimator (source lines 123-126);
* `videos_list_stats` — parsing of one batched remote response into a
  mapping keyed by entity id (source lines 73-90; the network `execute`
  itself is abstracted as an environment oracle, see `Env`);
* `append_rows_to_csv` / `appendOne` — the per-entity CSV append sink
  (source lines 100-121);
* `vid_batches` — the batch planner, the slicing comprehension of source
  line 161, parameterised by the maximum batch size (the source passes the
  constant `MAX_BATCH`);
* `run_polling_loop` — the polling scheduler (source lines 148-199),
  modelled as a state-passing loop over a logical clock: every call to
  `utcnow` reads the clock, every `time.sleep` advances it, and each remote
  fetch attempt advances it by an environment-chosen duration.

Entity ids are plain uninterpreted strings in the source; the embedding keeps them as a
type parameter with decidable equality so that concrete runs can be
evaluated by the kernel.  Floating point `t0_hours` and backoff seconds are
modelled as rationals; all the values exercised here are exact.
-/

namespace YtPolling

/-- Source line 49: `MAX_BATCH = 50`. -/
def MAX_BATCH : Nat := 50

/-- Source line 52: `QUOTA_PER_CALL = 1`. -/
def QUOTA_PER_CALL : Nat := 1

/-- The error raised by the remote client (`HttpError`).  The handler at
source lines 181-185 reads `e.resp.status`, which may be unavailable,
hence an optional status code. -/
structure HttpErr where
  status : Option Nat
deriving DecidableEq

/-- One item of the remote response body (`resp["items"][i]`).  The numeric
fields are already parsed (the `int(...)` conversions of source lines 83-85
belong to the transport); each field may be absent. -/
structure Item (α : Type) where
  id : α
  viewCount : Option Int
  likeCount : Option Int
  commentCount : Option Int
  publishedAt : Option String
  title : Option String
  duration : Option String
deriving DecidableEq

/-- The per-entity record built by `videos_list_stats` (source lines
82-89). -/
structure VideoRec where
  viewCount : Option Int
  likeCount : Option Int
  commentCount : Option Int
  publishedAt : Option String
  title : Option String
  duration : Option String
deriving DecidableEq

/-- Source lines 82-89: the record stored under `out[vid]`. -/
def recOfItem {α : Type} (it : Item α) : VideoRec :=
  { viewCount := it.viewCount
    likeCount := it.likeCount
    commentCount := it.commentCount
    publishedAt := it.publishedAt
    title := it.title
    duration := it.duration }

/-- Python dict assignment `out[k] = v`: overwrite the value at the first
occurrence of `k`, keeping insertion order, or append a fresh entry. -/
def dictInsert {α : Type} [DecidableEq α] (k : α) (v : VideoRec) :
    List (α × VideoRec) → List (α × VideoRec)
  | [] => [(k, v)]
  | (k1, v1) :: rest =>
    if k1 = k then (k, v) :: rest else (k1, v1) :: dictInsert k v rest

/-- Source lines 76-90: fold the response items into a dict keyed by the
item id.  The `execute()` network call of line 75 is the oracle
`Env.fetchOutcome`; this function is the parsing loop that follows it. -/
def videos_list_stats {α : Type} [DecidableEq α] (resp_items : List (Item α)) :
    List (α × VideoRec) :=
  resp_items.foldl (fun out it => dictInsert it.id (recOfItem it) out) []

/-- One CSV row of `data/<id>/polls.csv`: either the header (source lines
100-101, written at line 115) or a data row in the column order of source
lines 116-120: id, timestamp, views, likes, comments, title, publishedAt. -/
inductive Row (α : Type) where
  | header : Row α
  | data (video_id : α) (ts_utc : ℚ) (view_count : Option Int)
      (like_count : Option Int) (comment_count : Option Int)
      (title : Option String) (publishedAt : Option String) : Row α
deriving DecidableEq

/-- The body of the `for vid, rec in snapshots.items()` loop of source
lines 107-120 for a single entity: the file system maps an entity id to the
row list of its `polls.csv`; a missing file is the empty list.  The header
is written exactly when the file did not yet exist (line 111), then the
data row is appended. -/
def appendOne {α : Type} [DecidableEq α] (fs : α → List (Row α)) (ts : ℚ)
    (vid : α) (rec : VideoRec) : α → List (Row α) :=
  fun p =>
    if p = vid then
      (if fs vid = [] then [Row.header] else fs vid) ++
        [Row.data vid ts rec.viewCount rec.likeCount rec.commentCount
          rec.title rec.publishedAt]
    else fs p

/-- Source lines 104-120.  The timestamp `ts` is taken once, by the
`utcnow()` call at line 106 at the start of this function, and shared by
every row this call writes; the caller passes the clock value at the moment
of the call. -/
def append_rows_to_csv {α : Type} [DecidableEq α] (fs : α → List (Row α))
    (now : ℚ) (snapshots : List (α × VideoRec)) : α → List (Row α) :=
  snapshots.foldl (fun f kv => appendOne f now kv.1 kv.2) fs

/-- Number of header rows in a file. -/
def numHeader {α : Type} (rows : List (Row α)) : Nat :=
  rows.countP fun r => match r with
    | Row.header => true
    | Row.data _ _ _ _ _ _ _ => false

/-- Number of data rows in a file. -/
def numData {α : Type} (rows : List (Row α)) : Nat :=
  rows.countP fun r => match r with
    | Row.header => false
    | Row.data _ _ _ _ _ _ _ => true

/-- Source lines 123-126: `math.ceil((t0_hours * 3600) / poll_interval_sec)`.
The `num_videos` parameter is accepted and ignored, exactly as in the
source. -/
def estimate_calls (num_videos : Nat) (poll_interval_sec : Nat)
    (t0_hours : ℚ) : ℤ :=
  ⌈t0_hours * 3600 / (poll_interval_sec : ℚ)⌉

/-- Stated from the specification words, for comparison with
`estimate_calls`: total calls = rounds × ceil(entity_count /
max_batch_size). -/
def spec_total_calls (entity_count : Nat) (max_batch_size : Nat)
    (interval_seconds : Nat) (duration_hours : ℚ) : ℤ :=
  ⌈duration_hours * 3600 / (interval_seconds : ℚ)⌉ *
    ⌈(entity_count : ℚ) / (max_batch_size : ℚ)⌉

/-- Fuel-indexed chunking; with `fuel ≥ xs.length` and `0 < b` this is the
comprehension `[xs[i:i+b] for i in range(0, len(xs), b)]`. -/
def chunkAux {α : Type} (b : Nat) : Nat → List α → List (List α)
  | _, [] => []
  | 0, _ :: _ => []
  | fuel + 1, x :: xs => (x :: xs).take b :: chunkAux b fuel ((x :: xs).drop b)

/-- Source line 161:
`vid_batches = [video_ids[i:i + MAX_BATCH] for i in range(0, len(video_ids), MAX_BATCH)]`,
with the batch size as a parameter (the source instantiates it with
`MAX_BATCH`, see `run_polling_loop`). -/
def vid_batches {α : Type} (video_ids : List α) (b : Nat) : List (List α) :=
  chunkAux b video_ids.length video_ids

/-- Environment oracle for one run: the outcome and wall-clock duration of
the `k`-th remote fetch attempt (`service.videos().list(...).execute()` at
source line 75). -/
structure Env (α : Type) where
  fetchOutcome : Nat → Except HttpErr (List (Item α))
  fetchDuration : Nat → ℚ

/-- The mutable state of `run_polling_loop`, plus trace bookkeeping:
`time` is the logical clock (`utcnow`, seconds since the run start),
`fs` the persisted CSV files, `fetches` records (batch, start time) of
every remote fetch attempt, `batchStarts` records (batch, time) at each
passed per-batch deadline check (source line 170), `call_count` is the
counter of source line 163, `fetchIdx` the number of fetch attempts made,
and `slept` the accumulated `time.sleep` seconds. -/
structure RunState (α : Type) where
  time : ℚ
  fs : α → List (Row α)
  fetches : List (List α × ℚ)
  batchStarts : List (List α × ℚ)
  call_count : Nat
  fetchIdx : Nat
  slept : ℚ

/-- The state at the start of a run: clock at 0, no files, no calls. -/
def initState {α : Type} : RunState α :=
  { time := 0
    fs := fun _ => []
    fetches := []
    batchStarts := []
    call_count := 0
    fetchIdx := 0
    slept := 0 }

/-- Source lines 172-192: the `while True` retry loop for one batch.
`attempt` is the counter of line 172; `fuel` bounds the iterations (the
caller passes `max_retries + 1`, which the loop never exhausts: the
`attempt > max_retries` break of line 187 fires first).  On success the
snapshots are appended and `call_count` incremented (lines 175-179); on an
error the attempt counter is incremented and, unless the retry budget is
exhausted, the loop sleeps `backoff_initial * 2 ^ (attempt - 1)` seconds
(lines 186-192).  Note the handler never inspects the extracted status. -/
def batchRetryAux {α : Type} [DecidableEq α] (env : Env α) (max_retries : Nat)
    (backoff_initial : ℚ) (batch : List α) :
    Nat → Nat → RunState α → RunState α
  | 0, _, st => st
  | fuel + 1, attempt, st =>
    let st1 : RunState α :=
      { st with
        fetches := st.fetches ++ [(batch, st.time)]
        time := st.time + env.fetchDuration st.fetchIdx
        fetchIdx := st.fetchIdx + 1 }
    match env.fetchOutcome st.fetchIdx with
    | Except.ok items =>
      let snaps := videos_list_stats items
      { st1 with
        fs := append_rows_to_csv st1.fs st1.time snaps
        call_count := st1.call_count + 1 }
    | Except.error _ =>
      let a := attempt + 1
      if a > max_retries then st1
      else
        let wait := backoff_initial * 2 ^ (a - 1)
        batchRetryAux env max_retries backoff_initial batch fuel a
          { st1 with time := st1.time + wait, slept := st1.slept + wait }

/-- Source lines 169-193: the `for batch in vid_batches` loop of one round.
Before each batch the deadline is checked (line 170); reaching it breaks
out of the round.  `batchStarts` records the clock at each passed check. -/
def roundBatches {α : Type} [DecidableEq α] (env : Env α) (max_retries : Nat)
    (backoff_initial : ℚ) (endTime : ℚ) :
    List (List α) → RunState α → RunState α
  | [], st => st
  | batch :: rest, st =>
    if endTime ≤ st.time then st
    else
      roundBatches env max_retries backoff_initial endTime rest
        (batchRetryAux env max_retries backoff_initial batch
          (max_retries + 1) 0
          { st with batchStarts := st.batchStarts ++ [(batch, st.time)] })

/-- Source lines 167-198: the outer `while utcnow() < end` loop.  Each
iteration runs one round over the fixed batch list, then sleeps the full
interval (line 198; the `remaining` computation of line 195 is dead code
and the round-start `ts_now` of line 168 is only printed, so neither is
modelled).  `fuel` bounds the number of loop iterations; since every
iteration advances the clock by at least `interval`, any concrete run
terminates within a computable fuel. -/
def pollLoop {α : Type} [DecidableEq α] (env : Env α) (max_retries : Nat)
    (backoff_initial : ℚ) (interval : Nat) (endTime : ℚ)
    (batches : List (List α)) : Nat → RunState α → RunState α
  | 0, st => st
  | fuel + 1, st =>
    if st.time < endTime then
      let st1 := roundBatches env max_retries backoff_initial endTime
        batches st
      pollLoop env max_retries backoff_initial interval endTime batches fuel
        { st1 with
          time := st1.time + (interval : ℚ)
          slept := st1.slept + (interval : ℚ) }
    else st

/-- Source lines 148-199: `run_polling_loop`.  The run starts at clock 0
and ends at `t0_hours * 3600` seconds (lines 150-151).  The quota guard of
lines 155-157 returns before any fetch when `max_calls` is set and the
estimate exceeds it (`ensure_out_dirs` only creates directories, never file
rows, so the sink is untouched).  Otherwise the loop runs with
`backoff_initial = 2.0`, `max_retries = 6` (lines 164-165) over the
batches of line 161. -/
def run_polling_loop {α : Type} [DecidableEq α] (env : Env α)
    (video_ids : List α) (interval : Nat) (t0_hours : ℚ)
    (max_calls : Option Nat) (fuel : Nat) : RunState α :=
  let endTime : ℚ := t0_hours * 3600
  let intervals := estimate_calls video_ids.length interval t0_hours
  match max_calls with
  | some m =>
    if (m : ℤ) < intervals then initState
    else
      pollLoop env 6 2 interval endTime (vid_batches video_ids MAX_BATCH)
        fuel initState
  | none =>
    pollLoop env 6 2 interval endTime (vid_batches video_ids MAX_BATCH)
      fuel initState

/-- A record with every field absent, used for concrete instances. -/
def emptyRec : VideoRec :=
  { viewCount := none
    likeCount := none
    commentCount := none
    publishedAt := none
    title := none
    duration := none }

/-- A response item for entity `n` with every optional field absent. -/
def itemOf (n : Nat) : Item Nat :=
  { id := n
    viewCount := none
    likeCount := none
    commentCount := none
    publishedAt := none
    title := none
    duration := none }

/-- An environment whose every fetch attempt raises an error with the given
status and takes no time. -/
def constErrEnv (s : Option Nat) : Env Nat :=
  { fetchOutcome := fun _ => Except.error ⟨s⟩
    fetchDuration := fun _ => 0 }

/-- Environment for the round-timestamp counterexample: the first fetch
(batch 1 of round 1) answers with entity 0 only, the second (batch 2 of
round 1) with entity 50 only; every fetch takes one second. -/
def cexEnv5 : Env Nat :=
  { fetchOutcome := fun k =>
      if k = 0 then Except.ok [itemOf 0]
      else if k = 1 then Except.ok [itemOf 50]
      else Except.error ⟨none⟩
    fetchDuration := fun _ => 1 }

/-- A run over 51 entities (hence two batches per round, since
`MAX_BATCH = 50`), polling interval 60 s, window 10 s (so exactly one round
executes before the deadline). -/
def cexRun5 : RunState Nat :=
  run_polling_loop cexEnv5 (List.range 51) 60 (10 / 3600) none 2

/-- Environment for the deadline counterexample: the first fetch attempt
fails (status 500), every later one succeeds with an empty response;
fetches take no time. -/
def cexEnv8 : Env Nat :=
  { fetchOutcome := fun k =>
      if k = 0 then Except.error ⟨some 500⟩ else Except.ok []
    fetchDuration := fun _ => 0 }

/-- A run over one entity with a 1-second window: the first fetch attempt
starts at time 0, fails, and the 2-second backoff sleep crosses the
deadline (1 s), after which the retry fetch starts at time 2. -/
def cexRun8 : RunState Nat :=
  run_polling_loop cexEnv8 [0] 60 (1 / 3600) none 2

lemma chunkAux_join {α : Type} (b : Nat) (hb : 0 < b) :
    ∀ (fuel : Nat) (xs : List α), xs.length ≤ fuel →
      (chunkAux b fuel xs).flatten = xs := by
  intro fuel
  induction fuel with
  | zero =>
    intro xs hxs
    cases xs with
    | nil => rfl
    | cons x t => simp at hxs
  | succ n ih =>
    intro xs hxs
    cases xs with
    | nil => rfl
    | cons x t =>
      simp only [chunkAux, List.flatten_cons]
      rw [ih]
      · exact List.take_append_drop b (x :: t)
      · simp only [List.length_drop, List.length_cons] at *
        omega

lemma chunkAux_sizes {α : Type} (b : Nat) :
    ∀ (fuel : Nat) (xs : List α) (c : List α),
      c ∈ chunkAux b fuel xs → c.length ≤ b := by
  intro fuel
  induction fuel with
  | zero =>
    intro xs c hc
    cases xs <;> simp [chunkAux] at hc
  | succ n ih =>
    intro xs c hc
    cases xs with
    | nil => simp [chunkAux] at hc
    | cons x t =>
      simp only [chunkAux, List.mem_cons] at hc
      rcases hc with h | h
      · subst h
        simp [List.length_take]
      · exact ih _ _ h

/-- Claim C6: for every input entity list and every positive maximum batch
size, the planner returns an ordered sequence of contiguous slices, each of
size at most the maximum, that together cover every input entity exactly
once in the original order (their concatenation is the input list); for 120
entities with maximum batch size 50 it yields exactly the sizes
[50, 50, 20]. -/
theorem vid_batches_partition {α : Type} (xs : List α) (b : Nat) (hb : 0 < b) :
    (vid_batches xs b).flatten = xs ∧
    (∀ c ∈ vid_batches xs b, c.length ≤ b) ∧
    (vid_batches (List.range 120) MAX_BATCH).map List.length = [50, 50, 20] :=
  ⟨chunkAux_join b hb xs.length xs le_rfl,
   fun c hc => chunkAux_sizes b xs.length xs c hc,
   by decide⟩

/-- Witness for C6 at a concrete input. -/
theorem vid_batches_partition_witness :
    0 < 2 ∧
    ((vid_batches [3, 1, 4] 2).flatten = [3, 1, 4] ∧
      (∀ c ∈ vid_batches [3, 1, 4] 2, c.length ≤ 2) ∧
      (vid_batches (List.range 120) MAX_BATCH).map List.length =
        [50, 50, 20]) :=
  ⟨by decide, vid_batches_partition [3, 1, 4] 2 (by decide)⟩

lemma appendOne_self {α : Type} [DecidableEq α] (fs : α → List (Row α))
    (ts : ℚ) (v : α) (rec : VideoRec) :
    appendOne fs ts v rec v =
      (if fs v = [] then [Row.header] else fs v) ++
        [Row.data v ts rec.viewCount rec.likeCount rec.commentCount
          rec.title rec.publishedAt] := by
  simp [appendOne]

lemma appendOne_ne {α : Type} [DecidableEq α] (fs : α → List (Row α))
    (ts : ℚ) (v : α) (rec : VideoRec) (p : α) (hp : p ≠ v) :
    appendOne fs ts v rec p = fs p := by
  simp [appendOne, hp]

lemma numHeader_append {α : Type} (l1 l2 : List (Row α)) :
    numHeader (l1 ++ l2) = numHeader l1 + numHeader l2 := by
  simp [numHeader, List.countP_append]

lemma numData_append {α : Type} (l1 l2 : List (Row α)) :
    numData (l1 ++ l2) = numData l1 + numData l2 := by
  simp [numData, List.countP_append]

lemma appendFold_counts {α : Type} [DecidableEq α] (v : α) :
    ∀ (ops : List (ℚ × VideoRec)) (fs : α → List (Row α)), fs v ≠ [] →
      numHeader ((ops.foldl (fun f p => appendOne f p.1 v p.2) fs) v) =
        numHeader (fs v) ∧
      numData ((ops.foldl (fun f p => appendOne f p.1 v p.2) fs) v) =
        numData (fs v) + ops.length := by
  intro ops
  induction ops with
  | nil => intro fs h; simp
  | cons p rest ih =>
    intro fs h
    have hself := appendOne_self fs p.1 v p.2
    rw [if_neg h] at hself
    have hne : appendOne fs p.1 v p.2 v ≠ [] := by
      rw [hself]; simp
    obtain ⟨h1, h2⟩ := ih (appendOne fs p.1 v p.2) hne
    constructor
    · rw [List.foldl_cons, h1, hself, numHeader_append]
      simp [numHeader]
    · rw [List.foldl_cons, h2, hself, numData_append]
      simp [numData]
      omega

/-- Claim C7: starting from a fresh store, N ≥ 1 sequential appends to the
same location produce exactly 1 header row and exactly N data rows, and
appending to an already-existing (non-empty) location never writes the
header again. -/
theorem csv_header_exactly_once {α : Type} [DecidableEq α] (v : α)
    (ops : List (ℚ × VideoRec)) (h : ops ≠ []) :
    numHeader ((ops.foldl (fun f p => appendOne f p.1 v p.2)
        (fun _ => ([] : List (Row α)))) v) = 1 ∧
    numData ((ops.foldl (fun f p => appendOne f p.1 v p.2)
        (fun _ => ([] : List (Row α)))) v) = ops.length ∧
    ∀ (g : α → List (Row α)) (ts : ℚ) (r : VideoRec), g v ≠ [] →
      numHeader (appendOne g ts v r v) = numHeader (g v) := by
  have hlast : ∀ (g : α → List (Row α)) (ts : ℚ) (r : VideoRec), g v ≠ [] →
      numHeader (appendOne g ts v r v) = numHeader (g v) := by
    intro g ts r hg
    rw [appendOne_self, if_neg hg, numHeader_append]
    simp [numHeader]
  cases ops with
  | nil => exact absurd rfl h
  | cons p rest =>
    have hfirst : appendOne (fun _ => ([] : List (Row α))) p.1 v p.2 v =
        [Row.header, Row.data v p.1 p.2.viewCount p.2.likeCount
          p.2.commentCount p.2.title p.2.publishedAt] := by
      rw [appendOne_self]; simp
    have hne : appendOne (fun _ => ([] : List (Row α))) p.1 v p.2 v ≠ [] := by
      rw [hfirst]; simp
    obtain ⟨h1, h2⟩ := appendFold_counts v rest _ hne
    refine ⟨?_, ?_, hlast⟩
    · rw [List.foldl_cons, h1, hfirst]
      simp [numHeader]
    · rw [List.foldl_cons, h2, hfirst]
      simp [numData]
      omega

/-- Witness for C7 at a concrete input: two appends give one header and two
data rows. -/
theorem csv_header_exactly_once_witness :
    ([((3 : ℚ), emptyRec), (5, emptyRec)] : List (ℚ × VideoRec)) ≠ [] ∧
    (numHeader (([((3 : ℚ), emptyRec), (5, emptyRec)].foldl
        (fun f p => appendOne f p.1 (0 : Nat) p.2)
        (fun _ => ([] : List (Row Nat)))) 0) = 1 ∧
      numData (([((3 : ℚ), emptyRec), (5, emptyRec)].foldl
        (fun f p => appendOne f p.1 (0 : Nat) p.2)
        (fun _ => ([] : List (Row Nat)))) 0) =
        [((3 : ℚ), emptyRec), (5, emptyRec)].length ∧
      ∀ (g : Nat → List (Row Nat)) (ts : ℚ) (r : VideoRec), g 0 ≠ [] →
        numHeader (appendOne g ts 0 r 0) = numHeader (g 0)) :=
  ⟨by simp, csv_header_exactly_once 0 [(3, emptyRec), (5, emptyRec)] (by simp)⟩

lemma dictInsert_mem {α : Type} [DecidableEq α] (k : α) (v : VideoRec) :
    ∀ (l : List (α × VideoRec)) (kv : α × VideoRec),
      kv ∈ dictInsert k v l → kv = (k, v) ∨ kv ∈ l := by
  intro l
  induction l with
  | nil =>
    intro kv h
    simp [dictInsert] at h
    left; exact h
  | cons hd tl ih =>
    intro kv h
    obtain ⟨k1, v1⟩ := hd
    by_cases hk : k1 = k
    · simp only [dictInsert, if_pos hk, List.mem_cons] at h
      rcases h with h | h
      · left; exact h
      · right; exact List.mem_cons_of_mem _ h
    · simp only [dictInsert, if_neg hk, List.mem_cons] at h
      rcases h with h | h
      · right; exact h ▸ List.mem_cons_self _ _
      · rcases ih kv h with h1 | h1
        · left; exact h1
        · right; exact List.mem_cons_of_mem _ h1

lemma dictInsert_keys {α : Type} [DecidableEq α] (k : α) (v : VideoRec) :
    ∀ (l : List (α × VideoRec)) (x : α),
      x ∈ (dictInsert k v l).map Prod.fst ↔ x = k ∨ x ∈ l.map Prod.fst := by
  intro l
  induction l with
  | nil => intro x; simp [dictInsert]
  | cons hd tl ih =>
    intro x
    obtain ⟨k1, v1⟩ := hd
    by_cases hk : k1 = k
    · subst hk
      simp [dictInsert]
    · simp [dictInsert, hk, ih]
      tauto

lemma dictInsert_nodupKeys {α : Type} [DecidableEq α] (k : α) (v : VideoRec) :
    ∀ (l : List (α × VideoRec)), (l.map Prod.fst).Nodup →
      ((dictInsert k v l).map Prod.fst).Nodup := by
  intro l
  induction l with
  | nil => intro _; simp [dictInsert]
  | cons hd tl ih =>
    intro hnd
    obtain ⟨k1, v1⟩ := hd
    simp only [List.map_cons, List.nodup_cons] at hnd
    obtain ⟨hk1, htl⟩ := hnd
    by_cases hk : k1 = k
    · subst hk
      rw [show dictInsert k1 v ((k1, v1) :: tl) = (k1, v) :: tl from by
        simp [dictInsert]]
      simp only [List.map_cons, List.nodup_cons]
      exact ⟨hk1, htl⟩
    · simp only [dictInsert, if_neg hk, List.map_cons, List.nodup_cons]
      refine ⟨?_, ih htl⟩
      rw [dictInsert_keys]
      push_neg
      exact ⟨hk, hk1⟩

lemma videos_list_stats_mem {α : Type} [DecidableEq α] :
    ∀ (items : List (Item α)) (acc : List (α × VideoRec)) (kv : α × VideoRec),
      kv ∈ items.foldl (fun out it => dictInsert it.id (recOfItem it) out) acc →
      kv ∈ acc ∨ kv.1 ∈ items.map Item.id := by
  intro items
  induction items with
  | nil => intro acc kv h; left; exact h
  | cons it rest ih =>
    intro acc kv h
    rw [List.foldl_cons] at h
    rcases ih _ kv h with h1 | h1
    · rcases dictInsert_mem _ _ _ _ h1 with h2 | h2
      · right
        rw [h2]
        simp
      · left; exact h2
    · right
      simp [h1]

lemma videos_list_stats_nodupKeys {α : Type} [DecidableEq α] :
    ∀ (items : List (Item α)) (acc : List (α × VideoRec)),
      (acc.map Prod.fst).Nodup →
      (((items.foldl (fun out it => dictInsert it.id (recOfItem it) out)
        acc)).map Prod.fst).Nodup := by
  intro items
  induction items with
  | nil => intro acc h; exact h
  | cons it rest ih =>
    intro acc h
    rw [List.foldl_cons]
    exact ih _ (dictInsert_nodupKeys _ _ _ h)

lemma append_rows_ne {α : Type} [DecidableEq α] (v : α) :
    ∀ (snaps : List (α × VideoRec)) (fs : α → List (Row α)) (now : ℚ),
      (∀ kv ∈ snaps, kv.1 ≠ v) → append_rows_to_csv fs now snaps v = fs v := by
  intro snaps
  induction snaps with
  | nil => intro fs now _; rfl
  | cons kv rest ih =>
    intro fs now h
    have hkv : kv.1 ≠ v := h kv (List.mem_cons_self _ _)
    have hrest : ∀ kv1 ∈ rest, kv1.1 ≠ v :=
      fun kv1 hm => h kv1 (List.mem_cons_of_mem _ hm)
    show append_rows_to_csv (appendOne fs now kv.1 kv.2) now rest v = fs v
    rw [ih _ now hrest, appendOne_ne]
    exact fun hv => hkv hv.symm

/-- Claim C9: a requested entity id absent from the remote response is
silently dropped — the parsed mapping has no entry for it, and the
persistence sink is not touched at its location (no observation, no
failure marker, no row). -/
theorem absent_id_silently_dropped {α : Type} [DecidableEq α]
    (items : List (Item α)) (v : α) (h : v ∉ items.map Item.id)
    (fs : α → List (Row α)) (now : ℚ) :
    (∀ rec : VideoRec, (v, rec) ∉ videos_list_stats items) ∧
    append_rows_to_csv fs now (videos_list_stats items) v = fs v := by
  have hkeys : ∀ kv ∈ videos_list_stats items, kv.1 ≠ v := by
    intro kv hkv hv
    rcases videos_list_stats_mem items [] kv hkv with h0 | h0
    · simp at h0
    · rw [hv] at h0
      exact h h0
  exact ⟨fun rec hrec => hkeys (v, rec) hrec rfl,
    append_rows_ne v _ fs now hkeys⟩

/-- Witness for C9 at a concrete input: the response mentions only entity
1, so requested entity 0 yields no mapping entry and no write. -/
theorem absent_id_silently_dropped_witness :
    (0 : Nat) ∉ ([itemOf 1].map Item.id) ∧
    ((∀ rec : VideoRec, ((0 : Nat), rec) ∉ videos_list_stats [itemOf 1]) ∧
      append_rows_to_csv (fun _ => []) 0 (videos_list_stats [itemOf 1]) 0 =
        (fun _ => ([] : List (Row Nat))) 0) :=
  ⟨by simp [itemOf],
   absent_id_silently_dropped [itemOf 1] 0 (by simp [itemOf]) (fun _ => []) 0⟩

lemma numData_appendOne_self {α : Type} [DecidableEq α]
    (fs : α → List (Row α)) (ts : ℚ) (v : α) (rec : VideoRec) :
    numData (appendOne fs ts v rec v) = numData (fs v) + 1 := by
  rw [appendOne_self]
  by_cases h : fs v = [] <;> simp [h, numData_append, numData]

lemma append_rows_numData {α : Type} [DecidableEq α] (v : α) :
    ∀ (snaps : List (α × VideoRec)) (fs : α → List (Row α)) (now : ℚ),
      numData (append_rows_to_csv fs now snaps v) =
        numData (fs v) + snaps.countP (fun kv => decide (kv.1 = v)) := by
  intro snaps
  induction snaps with
  | nil => intro fs now; simp [append_rows_to_csv]
  | cons kv rest ih =>
    intro fs now
    show numData (append_rows_to_csv (appendOne fs now kv.1 kv.2) now rest v) =
      _
    rw [ih, List.countP_cons]
    by_cases h : kv.1 = v
    · subst h
      rw [numData_appendOne_self]
      simp
      omega
    · rw [appendOne_ne _ _ _ _ _ (fun hv => h hv.symm)]
      simp [h]

lemma countP_keys_eq_zero {α : Type} [DecidableEq α] (v : α) :
    ∀ (l : List (α × VideoRec)), v ∉ l.map Prod.fst →
      l.countP (fun kv => decide (kv.1 = v)) = 0 := by
  intro l
  induction l with
  | nil => intro _; rfl
  | cons kv rest ih =>
    intro h
    simp only [List.map_cons, List.mem_cons] at h
    push_neg at h
    rw [List.countP_cons]
    rw [ih h.2]
    simp
    exact fun hv => h.1 hv.symm

lemma countP_keys_le_one {α : Type} [DecidableEq α] (v : α) :
    ∀ (l : List (α × VideoRec)), (l.map Prod.fst).Nodup →
      l.countP (fun kv => decide (kv.1 = v)) ≤ 1 := by
  intro l
  induction l with
  | nil => intro _; simp
  | cons kv rest ih =>
    intro hnd
    simp only [List.map_cons, List.nodup_cons] at hnd
    rw [List.countP_cons]
    by_cases h : kv.1 = v
    · have h0 : rest.countP (fun kv => decide (kv.1 = v)) = 0 :=
        countP_keys_eq_zero v rest (h ▸ hnd.1)
      simp [h, h0]
    · have := ih hnd.2
      simp [h]
      omega

/-- Claim C10: the parsed batch result is keyed by entity id with no
duplicate keys, so even if the same id was requested several times in one
batch, one append call adds at most one data row to the file of that entity. -/
theorem duplicate_ids_one_row_per_batch {α : Type} [DecidableEq α]
    (items : List (Item α)) (fs : α → List (Row α)) (now : ℚ) (v : α) :
    ((videos_list_stats items).map Prod.fst).Nodup ∧
    numData (append_rows_to_csv fs now (videos_list_stats items) v) ≤
      numData (fs v) + 1 := by
  have hnd : ((videos_list_stats items).map Prod.fst).Nodup :=
    videos_list_stats_nodupKeys items [] (by simp)
  refine ⟨hnd, ?_⟩
  rw [append_rows_numData]
  have := countP_keys_le_one v _ hnd
  omega

lemma append_rows_mem {α : Type} [DecidableEq α] :
    ∀ (snaps : List (α × VideoRec)) (fs : α → List (Row α)) (now : ℚ)
      (p : α) (r : Row α), r ∈ append_rows_to_csv fs now snaps p →
      r ∈ fs p ∨ r = Row.header ∨
        ∃ (id : α) (vc lc cc : Option Int) (ti pa : Option String),
          r = Row.data id now vc lc cc ti pa := by
  intro snaps
  induction snaps with
  | nil => intro fs now p r h; left; exact h
  | cons kv rest ih =>
    intro fs now p r h
    replace h :
        r ∈ append_rows_to_csv (appendOne fs now kv.1 kv.2) now rest p := h
    rcases ih _ now p r h with h1 | h1
    · by_cases hp : p = kv.1
      · rw [hp] at h1
        rw [appendOne_self, List.mem_append] at h1
        rcases h1 with h2 | h2
        · by_cases hf : fs kv.1 = []
          · rw [if_pos hf] at h2
            right; left
            simpa using h2
          · rw [if_neg hf] at h2
            left
            rw [hp]
            exact h2
        · right; right
          exact ⟨kv.1, kv.2.viewCount, kv.2.likeCount, kv.2.commentCount,
            kv.2.title, kv.2.publishedAt, by simpa using h2⟩
      · rw [appendOne_ne _ _ _ _ _ hp] at h1
        left; exact h1
    · right; exact h1

/-- Claim C5 (amended): all rows written by one `append_rows_to_csv` call
share the single timestamp taken at the start of that call — any row of the
resulting store either predates the call, is a header, or is a data row
carrying exactly that timestamp.  The round-level version of the claim is
false (see the counterexample): the timestamp is taken per append call,
i.e. per batch, not once per round, so entities in different batches of the
same round can receive different observed_at values. -/
theorem timestamps_shared_within_append {α : Type} [DecidableEq α]
    (fs : α → List (Row α)) (now : ℚ) (snaps : List (α × VideoRec))
    (p : α) (r : Row α) (hr : r ∈ append_rows_to_csv fs now snaps p) :
    r ∈ fs p ∨ r = Row.header ∨
      ∃ (id : α) (vc lc cc : Option Int) (ti pa : Option String),
        r = Row.data id now vc lc cc ti pa :=
  append_rows_mem snaps fs now p r hr

/-- Witness for C5 (amended) at a concrete input. -/
theorem timestamps_shared_within_append_witness :
    (Row.data 0 5 none none none none none ∈
      append_rows_to_csv (fun _ => []) 5 [((0 : Nat), emptyRec)] 0) ∧
    (Row.data 0 5 none none none none none ∈
        (fun _ => ([] : List (Row Nat))) 0 ∨
      Row.data (0 : Nat) 5 none none none none none = Row.header ∨
      ∃ (id : Nat) (vc lc cc : Option Int) (ti pa : Option String),
        Row.data (0 : Nat) (5 : ℚ) none none none none none =
          Row.data id 5 vc lc cc ti pa) :=
  ⟨by simp [append_rows_to_csv, appendOne, emptyRec],
   timestamps_shared_within_append (fun _ => []) 5 [(0, emptyRec)] 0 _
     (by simp [append_rows_to_csv, appendOne, emptyRec])⟩

lemma batchRetryAux_allFail {α : Type} [DecidableEq α] (env : Env α)
    (e : HttpErr) (mR : Nat) (b0 : ℚ) (batch : List α)
    (h : ∀ k, env.fetchOutcome k = Except.error e) :
    ∀ (fuel attempt : Nat) (st : RunState α),
      attempt + fuel = mR + 1 → 0 < fuel →
      (batchRetryAux env mR b0 batch fuel attempt st).fetchIdx =
        st.fetchIdx + fuel ∧
      (batchRetryAux env mR b0 batch fuel attempt st).slept =
        st.slept + b0 * (2 ^ mR - 2 ^ attempt) ∧
      (batchRetryAux env mR b0 batch fuel attempt st).call_count =
        st.call_count ∧
      (batchRetryAux env mR b0 batch fuel attempt st).fs = st.fs := by
  intro fuel
  induction fuel with
  | zero => intro attempt st hinv hpos; omega
  | succ n ih =>
    intro attempt st hinv _
    simp only [batchRetryAux, h]
    by_cases hc : attempt + 1 > mR
    · have hn : n = 0 := by omega
      have ha : attempt = mR := by omega
      subst hn ha
      simp [hc]
    · have hn : 0 < n := by omega
      have := ih (attempt + 1)
        ({ st with
            fetches := st.fetches ++ [(batch, st.time)]
            time := st.time + env.fetchDuration st.fetchIdx + b0 * 2 ^ attempt
            fetchIdx := st.fetchIdx + 1
            slept := st.slept + b0 * 2 ^ attempt })
      simp [hc] at this ⊢
      obtain ⟨h1, h2, h3, h4⟩ := this (by omega) hn
      refine ⟨by omega, ?_, h3, h4⟩
      rw [h2, pow_succ]
      ring

/-- Claim C3 counterexample: with `max_retries = 6` and
`backoff_initial = 2.0`, a permanently failing operation (status 429 on
every attempt) makes 7 fetch attempts (`fetchIdx` counts them), not the 6
the claim states; the total backoff sleep is 126 seconds. -/
theorem retry_attempts_not_six :
    (batchRetryAux (constErrEnv (some 429)) 6 2 [0] 7 0 initState).fetchIdx =
      7 ∧
    (batchRetryAux (constErrEnv (some 429)) 6 2 [0] 7 0 initState).slept =
      126 ∧
    (batchRetryAux (constErrEnv (some 429)) 6 2 [0] 7 0
      initState).fetchIdx ≠ 6 := by
  obtain ⟨h1, h2, h3, h4⟩ :=
    batchRetryAux_allFail (constErrEnv (some 429)) ⟨some 429⟩ 6 2 [0]
      (fun k => rfl) 7 0 initState (by norm_num) (by norm_num)
  exact ⟨by rw [h1]; norm_num [initState], by rw [h2]; norm_num [initState],
    by rw [h1]; norm_num [initState]⟩

/-- Claim C3 (amended): for `max_retries = 6`, `backoff_initial = 2.0`, an
operation that fails on every attempt produces exactly 7 fetch attempts
(the initial attempt plus 6 retries — the source stops when the failure
counter exceeds `max_retries`), sleeping 2, 4, 8, 16, 32, 64 seconds
between consecutive attempts for a total simulated sleep of 126 seconds,
before giving up with no successful call and no write for that batch. -/
theorem retry_transient_seven_attempts {α : Type} [DecidableEq α]
    (env : Env α) (e : HttpErr) (batch : List α) (st : RunState α)
    (h : ∀ k, env.fetchOutcome k = Except.error e) :
    (batchRetryAux env 6 2 batch (6 + 1) 0 st).fetchIdx = st.fetchIdx + 7 ∧
    (batchRetryAux env 6 2 batch (6 + 1) 0 st).slept = st.slept + 126 ∧
    (batchRetryAux env 6 2 batch (6 + 1) 0 st).call_count = st.call_count ∧
    (batchRetryAux env 6 2 batch (6 + 1) 0 st).fs = st.fs := by
  obtain ⟨h1, h2, h3, h4⟩ :=
    batchRetryAux_allFail env e 6 2 batch h (6 + 1) 0 st (by norm_num)
      (by norm_num)
  refine ⟨by rw [h1], by rw [h2]; norm_num, h3, h4⟩

/-- Witness for C3 (amended) at a concrete input. -/
theorem retry_transient_seven_attempts_witness :
    (∀ k, (constErrEnv (some 503)).fetchOutcome k =
      Except.error ⟨some 503⟩) ∧
    ((batchRetryAux (constErrEnv (some 503)) 6 2 [1] (6 + 1) 0
        initState).fetchIdx = (initState : RunState Nat).fetchIdx + 7 ∧
      (batchRetryAux (constErrEnv (some 503)) 6 2 [1] (6 + 1) 0
        initState).slept = (initState : RunState Nat).slept + 126 ∧
      (batchRetryAux (constErrEnv (some 503)) 6 2 [1] (6 + 1) 0
        initState).call_count = (initState : RunState Nat).call_count ∧
      (batchRetryAux (constErrEnv (some 503)) 6 2 [1] (6 + 1) 0
        initState).fs = (initState : RunState Nat).fs) :=
  ⟨fun _ => rfl,
   retry_transient_seven_attempts (constErrEnv (some 503)) ⟨some 503⟩ [1]
     initState (fun _ => rfl)⟩

/-- Claim C4: the claim says a non-transient error (status other than
429/5xx, here 401) fails immediately with exactly 1 attempt and no sleep.
The code contradicts it (and its own header comment, which restricts
backoff to 429/5xx): the handler catches every `HttpError` without
consulting the extracted status, so a permanent status-401 failure is
retried with full exponential backoff — 7 attempts and 126 seconds of
sleep, not 1 attempt and none. -/
theorem nontransient_error_still_retried :
    (batchRetryAux (constErrEnv (some 401)) 6 2 [0] 7 0 initState).fetchIdx =
      7 ∧
    (batchRetryAux (constErrEnv (some 401)) 6 2 [0] 7 0 initState).slept =
      126 ∧
    (batchRetryAux (constErrEnv (some 401)) 6 2 [0] 7 0
      initState).fetchIdx ≠ 1 := by
  obtain ⟨h1, h2, h3, h4⟩ :=
    batchRetryAux_allFail (constErrEnv (some 401)) ⟨some 401⟩ 6 2 [0]
      (fun k => rfl) 7 0 initState (by norm_num) (by norm_num)
  exact ⟨by rw [h1]; norm_num [initState], by rw [h2]; norm_num [initState],
    by rw [h1]; norm_num [initState]⟩

lemma batchRetryAux_batchStarts {α : Type} [DecidableEq α] (env : Env α)
    (mR : Nat) (b0 : ℚ) (batch : List α) :
    ∀ (fuel attempt : Nat) (st : RunState α),
      (batchRetryAux env mR b0 batch fuel attempt st).batchStarts =
        st.batchStarts := by
  intro fuel
  induction fuel with
  | zero => intro attempt st; rfl
  | succ n ih =>
    intro attempt st
    simp only [batchRetryAux]
    cases env.fetchOutcome st.fetchIdx with
    | ok items => rfl
    | error e =>
      by_cases hc : attempt + 1 > mR
      · simp [hc]
      · simp [hc, ih]

lemma roundBatches_batchStarts {α : Type} [DecidableEq α] (env : Env α)
    (mR : Nat) (b0 : ℚ) (endT : ℚ) :
    ∀ (bs : List (List α)) (st : RunState α) (p : List α × ℚ),
      p ∈ (roundBatches env mR b0 endT bs st).batchStarts →
      p ∈ st.batchStarts ∨ p.2 < endT := by
  intro bs
  induction bs with
  | nil => intro st p hp; left; exact hp
  | cons batch rest ih =>
    intro st p hp
    simp only [roundBatches] at hp
    by_cases hc : endT ≤ st.time
    · rw [if_pos hc] at hp
      left; exact hp
    · rw [if_neg hc] at hp
      rcases ih _ p hp with h | h
      · rw [batchRetryAux_batchStarts] at h
        simp only [List.mem_append, List.mem_singleton] at h
        rcases h with h | h
        · left; exact h
        · right
          rw [h]
          exact lt_of_not_le hc
      · right; exact h

lemma pollLoop_batchStarts {α : Type} [DecidableEq α] (env : Env α)
    (mR : Nat) (b0 : ℚ) (interval : Nat) (endT : ℚ) (bs : List (List α)) :
    ∀ (fuel : Nat) (st : RunState α) (p : List α × ℚ),
      p ∈ (pollLoop env mR b0 interval endT bs fuel st).batchStarts →
      p ∈ st.batchStarts ∨ p.2 < endT := by
  intro fuel
  induction fuel with
  | zero => intro st p hp; left; exact hp
  | succ n ih =>
    intro st p hp
    simp only [pollLoop] at hp
    by_cases hc : st.time < endT
    · rw [if_pos hc] at hp
      rcases ih _ p hp with h | h
      · exact roundBatches_batchStarts env mR b0 endT bs st p h
      · right; exact h
    · rw [if_neg hc] at hp
      left; exact hp

/-- Claim C8 (amended): the scheduler checks the deadline before beginning
each batch, so every batch is begun strictly before the deadline
(`batchStarts` records the clock at each passed check); once the deadline
is reached, the remaining batches of the current round are skipped
immediately and the loop makes no further progress, so skipped batches are
not deferred.  However, the claim as stated is false: a retry attempt of a
batch begun before the deadline may start a fetch at or after the deadline
(see the counterexample), because the backoff loop never re-checks it. -/
theorem batches_begin_before_deadline {α : Type} [DecidableEq α]
    (env : Env α) (mR : Nat) (b0 : ℚ) (interval : Nat) (endT : ℚ)
    (bs : List (List α)) (fuel : Nat) (st : RunState α) :
    (∀ p ∈ (pollLoop env mR b0 interval endT bs fuel st).batchStarts,
        p ∈ st.batchStarts ∨ p.2 < endT) ∧
    (endT ≤ st.time → roundBatches env mR b0 endT bs st = st) ∧
    (endT ≤ st.time → pollLoop env mR b0 interval endT bs fuel st = st) := by
  refine ⟨fun p hp => pollLoop_batchStarts env mR b0 interval endT bs fuel
    st p hp, ?_, ?_⟩
  · intro hle
    cases bs with
    | nil => rfl
    | cons b r => simp [roundBatches, hle]
  · intro hle
    cases fuel with
    | zero => rfl
    | succ n => simp [pollLoop, not_lt.mpr hle]

/-- Witness for C8 (amended) at a concrete input: the deadline is 0, the
initial clock is 0, so the round and the loop are both identity and no
batch is begun. -/
theorem batches_begin_before_deadline_witness :
    (∀ p ∈ (pollLoop (constErrEnv none) 6 2 60 0 [[0]] 1
        (initState : RunState Nat)).batchStarts,
      p ∈ (initState : RunState Nat).batchStarts ∨ p.2 < 0) ∧
    ((0 : ℚ) ≤ (initState : RunState Nat).time) ∧
    roundBatches (constErrEnv none) 6 2 0 [[0]]
      (initState : RunState Nat) = initState ∧
    pollLoop (constErrEnv none) 6 2 60 0 [[0]] 1
      (initState : RunState Nat) = initState := by
  have h0 : (0 : ℚ) ≤ (initState : RunState Nat).time := by
    norm_num [initState]
  obtain ⟨h1, h2, h3⟩ := batches_begin_before_deadline (constErrEnv none) 6 2
    60 0 [[0]] 1 (initState : RunState Nat)
  exact ⟨h1, h0, h2 h0, h3 h0⟩

/-- Claim C8 counterexample: in `cexRun8` the deadline is
`(1/3600) * 3600 = 1` second.  The single batch is begun at time 0 (before
the deadline), its first fetch attempt starts at time 0 and fails, the
2-second backoff sleep crosses the deadline, and the retry fetch then
starts at time 2 — a batch fetch call started at or after the deadline,
refuting the claim that no fetch call starts at or after it. -/
theorem retry_fetch_starts_after_deadline :
    cexRun8.fetches = [([0], 0), ([0], 2)] ∧
    cexRun8.batchStarts = [([0], 0)] ∧
    ¬ ((2 : ℚ) < 1) := by
  norm_num [cexRun8, run_polling_loop, pollLoop, roundBatches, batchRetryAux,
    vid_batches, chunkAux, initState, cexEnv8, MAX_BATCH]

/-- Claim C5 counterexample: `cexRun5` polls 51 entities (two batches per
round) with a 10-second window, so exactly one round executes — both
fetches start (at times 0 and 1) before the single 60-second interval
sleep (`slept = 60`).  Within that one round, entity 0 (batch 1) is
persisted with observed_at 1 while entity 50 (batch 2) is persisted with
observed_at 2: two entities sampled in the same round receive different
timestamps, because `append_rows_to_csv` takes its own timestamp per batch
rather than using one taken before the round began. -/
theorem round_timestamps_differ_across_batches :
    cexRun5.fs 0 = [Row.header, Row.data 0 1 none none none none none] ∧
    cexRun5.fs 50 = [Row.header, Row.data 50 2 none none none none none] ∧
    cexRun5.fetches.map Prod.snd = [0, 1] ∧
    cexRun5.slept = 60 ∧
    (1 : ℚ) ≠ 2 := by
  norm_num [cexRun5, run_polling_loop, pollLoop, roundBatches, batchRetryAux,
    vid_batches, chunkAux, initState, cexEnv5, MAX_BATCH, itemOf,
    videos_list_stats, dictInsert, recOfItem, append_rows_to_csv, appendOne,
    List.range_succ]

/-- Claim C2: whenever `max_calls` is set and the pre-flight estimate
exceeds it, the run aborts immediately: no remote fetch call is made, the
success counter stays 0, and the persistence sink receives no write (every
file is still absent). -/
theorem preflight_abort_no_calls_no_writes {α : Type} [DecidableEq α]
    (env : Env α) (video_ids : List α) (interval : Nat) (t0_hours : ℚ)
    (m : Nat) (fuel : Nat)
    (h : (m : ℤ) < estimate_calls video_ids.length interval t0_hours) :
    (run_polling_loop env video_ids interval t0_hours (some m)
      fuel).fetches = [] ∧
    (run_polling_loop env video_ids interval t0_hours (some m)
      fuel).call_count = 0 ∧
    ∀ v, (run_polling_loop env video_ids interval t0_hours (some m)
      fuel).fs v = [] := by
  simp [run_polling_loop, h, initState]

/-- Witness for C2 at a concrete input: estimate for a 1-hour window at
60-second intervals is 60 > 0 = max_calls, so the run aborts untouched. -/
theorem preflight_abort_no_calls_no_writes_witness :
    (((0 : Nat) : ℤ) < estimate_calls [(0 : Nat)].length 60 1) ∧
    ((run_polling_loop (constErrEnv none) [0] 60 1 (some 0) 1).fetches =
        [] ∧
      (run_polling_loop (constErrEnv none) [0] 60 1 (some 0) 1).call_count =
        0 ∧
      ∀ v, (run_polling_loop (constErrEnv none) [0] 60 1 (some 0) 1).fs v =
        []) := by
  have h : ((0 : Nat) : ℤ) < estimate_calls [(0 : Nat)].length 60 1 := by
    norm_num [estimate_calls]
  exact ⟨h,
    preflight_abort_no_calls_no_writes (constErrEnv none) [0] 60 1 0 1 h⟩

/-- Claim C1: the claim (and the spec) require the run estimate to be
rounds × ceil(entity_count / max_batch_size) — 180 for 120 entities,
batch size 50, 60-second interval, 1-hour window.  The code computes
rounds only: `estimate_calls` returns 60 there, ignoring the entity count,
even though the loop really makes 3 calls per round (the batch list has 3
batches), and its own comment claims all ids fit in a single call per
interval.  So the estimator undercounts multi-batch runs. -/
theorem estimate_calls_undercounts_batches :
    estimate_calls 120 60 1 = 60 ∧
    spec_total_calls 120 50 60 1 = 180 ∧
    (vid_batches (List.range 120) MAX_BATCH).length = 3 ∧
    estimate_calls 120 60 1 ≠ spec_total_calls 120 50 60 1 := by
  have h1 : estimate_calls 120 60 1 = 60 := by
    norm_num [estimate_calls]
  have hceil : (⌈(12 : ℚ) / 5⌉ : ℤ) = 3 := by
    rw [Int.ceil_eq_iff]
    norm_num
  have h2 : spec_total_calls 120 50 60 1 = 180 := by
    unfold spec_total_calls
    norm_num [hceil]
  exact ⟨h1, h2, by decide, by rw [h1, h2]; decide⟩

end YtPolling
